import Mathlib

/-!
Verification of the tasmota-go client library: a shallow embedding of the
command execution and backlog-batching layer (client.go, power.go, status.go,
the device-configuration file) together with proofs of the specified
properties.

Conventions of the embedding:
* Go errors of type `*tasmota.Error` become the structure `TError` (Go field
  `Type` is `etype` here, since `Type` is reserved in Lean); the wrapped
  cause (`Err`) is dropped — no checked property depends on it.
* The HTTP transport is a function from the request's `cmnd` value to an
  abstract `TransportOutcome`; `Client.do`'s classification of an outcome is
  `doRequest`.  Each call of `doRequest` is one HTTP request, so the
  pipeline functions return the list of `cmnd` values of the requests they
  issued alongside their result.
* `encoding/json`'s syntactic validation (unmarshalling into
  `json.RawMessage`) is an abstract parameter `vj : String → Bool`.
* `net/url.Parse` (external library) is a parameter
  `parseHost : String → Option String` returning the parsed `Host`
  component, with `urlHostModel` a concrete partial model used in witnesses.
* The query encoding performed by `net/url.Values.Encode` and the decoding
  performed by `url.ParseQuery` are embedded byte-exactly over Go strings
  viewed as byte lists (`GoBytes`).
-/

namespace Tasmota

/-- Embeds the Go `ErrorType` enumeration of errors.go. -/
inductive ErrorType where
  | network
  | auth
  | command
  | parse
  | timeout
  | device
  deriving DecidableEq, Repr

/-- Embeds the Go structure `Error` (field `Type` renamed `etype`; the
wrapped cause `Err` is omitted). -/
structure TError where
  etype : ErrorType
  message : String
  deriving DecidableEq, Repr

/-- Embeds `NewError` of errors.go (the `err` cause argument is dropped). -/
def NewError (errType : ErrorType) (message : String) : TError :=
  { etype := errType, message := message }

/-- Go `unicode.IsSpace` over a character: the Unicode White_Space property,
exactly the set Go's table contains. -/
def goIsSpace (c : Char) : Bool :=
  c.toNat = 9 || c.toNat = 10 || c.toNat = 11 || c.toNat = 12 || c.toNat = 13 ||
  c.toNat = 32 || c.toNat = 0x85 || c.toNat = 0xA0 || c.toNat = 0x1680 ||
  (0x2000 ≤ c.toNat && c.toNat ≤ 0x200A) || c.toNat = 0x2028 || c.toNat = 0x2029 ||
  c.toNat = 0x202F || c.toNat = 0x205F || c.toNat = 0x3000

/-- Embeds Go `strings.TrimSpace`: remove leading and trailing white space. -/
def trimSpace (s : String) : String :=
  String.mk (((s.data.dropWhile goIsSpace).reverse.dropWhile goIsSpace).reverse)

/-- The `Client` of client.go, restricted to what the verified layer reads:
whether `url.Parse` succeeds on the stored base URL (true for every client
built by `NewClient`, which validated it), and the credentials. -/
structure Client where
  baseURLValid : Bool
  username : String
  password : String

/-- The state of `ctx.Err()` at the moment `Client.do` inspects it. -/
inductive CtxStatus where
  | ok
  | canceled
  | deadlineExceeded
  deriving DecidableEq, Repr

/-- Outcome of the single `httpClient.Do` call inside `Client.do`: either a
response with a status code and a fully read body, or a transport error
(carrying the context status observed afterwards). -/
inductive TransportOutcome where
  | response (status : Nat) (body : String)
  | transportError (ctx : CtxStatus)
  deriving DecidableEq, Repr

/-- Embeds the error classification of `Client.do` (client.go): a transport
error is a timeout when `ctx.Err() == context.DeadlineExceeded` and a network
error otherwise; a 401 response is an auth error; any other non-200 response
is a network error carrying the status code; a 200 response yields the body. -/
def doRequest (outcome : TransportOutcome) : Except TError String :=
  match outcome with
  | .transportError ctx =>
      if ctx = .deadlineExceeded then .error (NewError .timeout "request timeout")
      else .error (NewError .network "request failed")
  | .response status body =>
      if status ≠ 200 then
        if status = 401 then .error (NewError .auth "authentication failed")
        else .error (NewError .network ("unexpected status code: " ++ toString status))
      else .ok body

/-- The command-level view of `Client.buildURL` (client.go): rejects the
empty command, fails when the stored base URL does not parse, and otherwise
determines a URL whose `cmnd` query parameter is exactly the command (the
byte-exact query encoding is modelled separately by `buildQuery` below, so a
request is identified here by its `cmnd` value). -/
def buildURLCmnd (c : Client) (command : String) : Except TError String :=
  if command = "" then .error (NewError .command "command cannot be empty")
  else if c.baseURLValid = false then .error (NewError .network "invalid base URL")
  else .ok command

/-- Embeds `Client.ExecuteCommand` (power.go): reject the empty command,
build the URL, perform exactly one HTTP request through `doRequest`, and
validate that the body is JSON (`vj` standing for `encoding/json`'s
syntactic check).  Returns the `cmnd` values of the requests issued together
with the result. -/
def ExecuteCommand (vj : String → Bool) (tr : String → TransportOutcome)
    (c : Client) (command : String) : List String × Except TError String :=
  if command = "" then ([], .error (NewError .command "command cannot be empty"))
  else
    match buildURLCmnd c command with
    | .error e => ([], .error e)
    | .ok cmnd =>
        ([cmnd],
          match doRequest (tr cmnd) with
          | .error e => .error e
          | .ok body =>
              if vj body then .ok body
              else .error (NewError .parse "invalid JSON response"))

/-- Embeds `Client.ExecuteBacklog` (power.go): reject an empty list, reject
more than 30 commands, trim every command and drop the ones that become
empty, reject if none survive, and otherwise execute the single command
`"Backlog "` followed by the survivors joined with `"; "`. -/
def ExecuteBacklog (vj : String → Bool) (tr : String → TransportOutcome)
    (c : Client) (commands : List String) : List String × Except TError String :=
  if commands.length = 0 then ([], .error (NewError .command "no commands provided"))
  else if commands.length > 30 then
    ([], .error (NewError .command "backlog supports maximum 30 commands"))
  else if ((commands.map trimSpace).filter (fun s => s != "")).length = 0 then
    ([], .error (NewError .command "no valid commands provided"))
  else
    ExecuteCommand vj tr c
      ("Backlog " ++
        String.intercalate "; " ((commands.map trimSpace).filter (fun s => s != "")))

/-- Embeds the command construction of `Client.Status` (status.go): the
category is validated to 0–11, and for a positive category the command is
`"Status "` followed by the single character `rune('0' + category)` — the Go
expression `string(rune('0'+category))`, embedded as the character of code
point `48 + category`. -/
def statusCommand (category : Int) : Except TError String :=
  if category < 0 ∨ category > 11 then
    .error (NewError .command "status category must be between 0 and 11")
  else if category > 0 then
    .ok ("Status " ++ String.mk [Char.ofNat (48 + category.toNat)])
  else .ok "Status"

/-- The fields of the Go `StatusInfo` structure read by the checked
properties (the remaining JSON fields of status.go do not affect them). -/
structure StatusInfo where
  DeviceName : String := ""
  PowerOnState : Int := 0
  LedState : Int := 0
  deriving DecidableEq, Repr

/-- The `Status` sub-object slot of the Go `StatusResponse`: `none` models a
`nil` pointer after unmarshalling (the sub-object was absent from the JSON). -/
structure StatusResponse where
  Status : Option StatusInfo := none
  deriving DecidableEq, Repr

/-- Embeds the sub-object extraction of `Client.GetDeviceInfo` (status.go):
a `nil` `Status` field yields a parse error, otherwise the field is
returned. -/
def getDeviceInfoPost (resp : StatusResponse) : Except TError StatusInfo :=
  match resp.Status with
  | none => .error (NewError .parse "status response missing Status field")
  | some s => .ok s

/-- Embeds the Go `DeviceConfig` structure (device-configuration file). -/
structure DeviceConfig where
  FriendlyName : List String := []
  DeviceName : String := ""
  PowerOnState : Int := 0
  LedState : Int := 0
  Sleep : Int := 0
  ButtonRetain : Int := 0
  SwitchRetain : Int := 0
  SensorRetain : Int := 0
  PowerRetain : Int := 0
  deriving DecidableEq, Repr

/-- The friendly-name loop of `Client.ApplyConfig`: entry `i` (1-based, the
Go loop index plus one) contributes `FriendlyName<i> <name>` when the name is
non-empty. -/
def friendlyNameCommands (names : List String) (i : Nat) : List String :=
  match names with
  | [] => []
  | n :: rest =>
      (if n ≠ "" then ["FriendlyName" ++ toString i ++ " " ++ n] else [])
        ++ friendlyNameCommands rest (i + 1)

/-- The command list built by `Client.ApplyConfig` before dispatch, in the
source's order: device name, friendly names, then each integer setting when
it lies in its documented range. -/
def applyConfigCommands (cfg : DeviceConfig) : List String :=
  (if cfg.DeviceName ≠ "" then ["DeviceName " ++ cfg.DeviceName] else [])
    ++ friendlyNameCommands cfg.FriendlyName 1
    ++ (if 0 ≤ cfg.PowerOnState ∧ cfg.PowerOnState ≤ 5 then
          ["PowerOnState " ++ toString cfg.PowerOnState] else [])
    ++ (if 0 ≤ cfg.LedState ∧ cfg.LedState ≤ 8 then
          ["LedState " ++ toString cfg.LedState] else [])
    ++ (if 0 ≤ cfg.Sleep ∧ cfg.Sleep ≤ 250 then
          ["Sleep " ++ toString cfg.Sleep] else [])
    ++ (if 0 ≤ cfg.ButtonRetain ∧ cfg.ButtonRetain ≤ 1 then
          ["ButtonRetain " ++ toString cfg.ButtonRetain] else [])
    ++ (if 0 ≤ cfg.SwitchRetain ∧ cfg.SwitchRetain ≤ 1 then
          ["SwitchRetain " ++ toString cfg.SwitchRetain] else [])
    ++ (if 0 ≤ cfg.SensorRetain ∧ cfg.SensorRetain ≤ 1 then
          ["SensorRetain " ++ toString cfg.SensorRetain] else [])
    ++ (if 0 ≤ cfg.PowerRetain ∧ cfg.PowerRetain ≤ 1 then
          ["PowerRetain " ++ toString cfg.PowerRetain] else [])

/-- Embeds `Client.ApplyConfig` (device-configuration file): a `nil` config
(`none`) is rejected, an empty command list is rejected, and otherwise the
commands go through `ExecuteBacklog`.  The Go method discards the JSON
payload; the pair (requests issued, executor result) is returned unchanged. -/
def ApplyConfig (vj : String → Bool) (tr : String → TransportOutcome)
    (c : Client) (cfg : Option DeviceConfig) : List String × Except TError String :=
  match cfg with
  | none => ([], .error (NewError .command "config cannot be nil"))
  | some cfg =>
      if applyConfigCommands cfg = [] then
        ([], .error (NewError .command "no valid configuration changes to apply"))
      else ExecuteBacklog vj tr c (applyConfigCommands cfg)

/-- Embeds Go `strings.TrimRight(host, "/")`. -/
def dropTrailingSlashes (s : String) : String :=
  String.mk ((s.data.reverse.dropWhile (fun c => c = '/')).reverse)

/-- Embeds Go `strings.HasPrefix pre` of a string (argument order: the
candidate prefix first). -/
def strHasPre (pre s : String) : Bool :=
  pre.data.isPrefixOf s.data

/-- The scheme test of `normalizeHost`: `strings.HasPrefix(host, "http://")
|| strings.HasPrefix(host, "https://")`. -/
def hasScheme (s : String) : Bool :=
  strHasPre "http://" s || strHasPre "https://" s

/-- The scheme-completion step of `normalizeHost`: prepend `http://` when no
scheme is present. -/
def withScheme (s : String) : String :=
  if hasScheme s then s else "http://" ++ s

/-- Embeds `normalizeHost` (client.go), parametrised by the external
`net/url.Parse` host extraction `parseHost` (`none` models a parse error,
`some h` the parsed `Host` component): trailing slashes are removed, a
missing scheme gets `http://` prepended, and the result is validated. -/
def normalizeHost (parseHost : String → Option String) (host : String) :
    Except String String :=
  match parseHost (withScheme (dropTrailingSlashes host)) with
  | none => .error "url parse error"
  | some h =>
      if h = "" then .error ("invalid host: " ++ withScheme (dropTrailingSlashes host))
      else .ok (withScheme (dropTrailingSlashes host))

/-- Embeds the validation part of `NewClient` (client.go), returning the base
URL of the constructed client: an empty host and a `normalizeHost` failure
both produce `ErrorTypeNetwork` errors. -/
def NewClient (parseHost : String → Option String) (host : String) :
    Except TError String :=
  if host = "" then .error (NewError .network "host cannot be empty")
  else
    match normalizeHost parseHost host with
    | .error _ => .error (NewError .network "invalid host")
    | .ok baseURL => .ok baseURL

/-- The authority portion of an http(s) URL: everything up to the first
`/`, `?` or `#`. -/
def hostPart (s : String) : String :=
  String.mk (s.data.takeWhile (fun c => c != '/' && c != '?' && c != '#'))

/-- Go `validOptionalPort` applied to the part after the last colon of the
host: empty, or digits only. -/
def validPortSuffix (h : String) : Bool :=
  if h.data.contains ':' then
    (h.data.reverse.takeWhile (fun c => c != ':')).all (fun c => c.isDigit)
  else true

/-- A concrete partial model of the external `net/url.Parse` composed with
`.Host`, covering the http/https URLs `normalizeHost` actually parses: the
host is the authority up to the first `/`, `?` or `#`, and a trailing
`:port` must be empty or numeric (Go's `validOptionalPort`).  Userinfo,
IPv6 bracket syntax and host-character validation are not modelled; none of
the inputs used below exercises them. -/
def urlHostModel (s : String) : Option String :=
  if strHasPre "http://" s then
    if validPortSuffix (hostPart (String.mk (s.data.drop 7))) then
      some (hostPart (String.mk (s.data.drop 7)))
    else none
  else if strHasPre "https://" s then
    if validPortSuffix (hostPart (String.mk (s.data.drop 8))) then
      some (hostPart (String.mk (s.data.drop 8)))
    else none
  else none

/-- A Go string viewed as its byte sequence (each element < 256). -/
abbrev GoBytes := List Nat

/-- The byte sequence of an ASCII Lean string literal. -/
def gostr (s : String) : GoBytes := s.data.map Char.toNat

/-- The bytes `url.QueryEscape` leaves unescaped: ASCII alphanumerics and
`-`, `_`, `.`, `~`. -/
def isUnreservedByte (b : Nat) : Prop :=
  (65 ≤ b ∧ b ≤ 90) ∨ (97 ≤ b ∧ b ≤ 122) ∨ (48 ≤ b ∧ b ≤ 57) ∨
  b = 45 ∨ b = 95 ∨ b = 46 ∨ b = 126

instance (b : Nat) : Decidable (isUnreservedByte b) := by
  unfold isUnreservedByte; infer_instance

/-- The byte of the upper-case hexadecimal digit for `n < 16`, as emitted by
Go's `escape`. -/
def hexDigitUpper (n : Nat) : Nat :=
  if n < 10 then 48 + n else 55 + n

/-- `url.QueryEscape` on one byte: space becomes `+` (43), unreserved bytes
pass through, every other byte becomes `%` (37) and two upper-case hex
digits. -/
def escapeByte (b : Nat) : List Nat :=
  if b = 32 then [43]
  else if isUnreservedByte b then [b]
  else [37, hexDigitUpper (b / 16), hexDigitUpper (b % 16)]

/-- Embeds `url.QueryEscape` byte-wise. -/
def queryEscape : GoBytes → GoBytes
  | [] => []
  | b :: rest => escapeByte b ++ queryEscape rest

/-- The value of a hexadecimal digit byte, as accepted by Go's `unhex`. -/
def hexVal (b : Nat) : Option Nat :=
  if 48 ≤ b ∧ b ≤ 57 then some (b - 48)
  else if 65 ≤ b ∧ b ≤ 70 then some (b - 55)
  else if 97 ≤ b ∧ b ≤ 102 then some (b - 87)
  else none

/-- The loop of `url.QueryUnescape`, with an explicit iteration bound
(`fuel`) standing for Go's index loop — one unit per decoded byte, so the
input's byte length always suffices: `%` must be followed by two hex digits
and decodes to their byte, `+` decodes to space, every other byte passes
through; a malformed escape makes the whole string fail. -/
def queryUnescapeAux : Nat → GoBytes → Option GoBytes
  | 0, _ => none
  | _ + 1, [] => some []
  | fuel + 1, b :: rest =>
      if b = 37 then
        match rest with
        | h :: l :: rest' =>
            match hexVal h, hexVal l, queryUnescapeAux fuel rest' with
            | some hv, some lv, some r => some ((16 * hv + lv) :: r)
            | _, _, _ => none
        | _ => none
      else if b = 43 then (queryUnescapeAux fuel rest).map (fun r => 32 :: r)
      else (queryUnescapeAux fuel rest).map (fun r => b :: r)

/-- Embeds `url.QueryUnescape`: the decode loop run to completion (one more
than the byte length bounds the number of iterations). -/
def queryUnescape (s : GoBytes) : Option GoBytes :=
  queryUnescapeAux (s.length + 1) s

/-- Embeds Go `strings.Cut` on a one-byte separator: the part before the
first occurrence and the part after it (the whole string and `[]` when the
separator is absent). -/
def cutByte (sep : Nat) : GoBytes → GoBytes × GoBytes
  | [] => ([], [])
  | b :: rest =>
      if b = sep then ([], rest)
      else (b :: (cutByte sep rest).1, (cutByte sep rest).2)

/-- Decoding of one `key=value` segment of `url.ParseQuery`: cut at the
first `=` and unescape both halves; a failing unescape drops the pair (Go
records the error and continues). -/
def parseSegPair (seg : GoBytes) : Option (GoBytes × GoBytes) :=
  match queryUnescape (cutByte 61 seg).1, queryUnescape (cutByte 61 seg).2 with
  | some k, some v => some (k, v)
  | _, _ => none

/-- The `strings.Cut` loop of `url.ParseQuery`, with an explicit iteration
bound (`fuel`) — one unit per segment, so the query's byte length always
suffices: the query is cut at each `&`; a segment containing `;` is skipped
(Go records an error and continues), an empty segment is skipped, and
otherwise the decoded pair is appended. -/
def parseQueryAux : Nat → GoBytes → List (GoBytes × GoBytes)
  | 0, _ => []
  | _ + 1, [] => []
  | fuel + 1, b :: q' =>
      if (59 : Nat) ∈ (cutByte 38 (b :: q')).1 then
        parseQueryAux fuel (cutByte 38 (b :: q')).2
      else if (cutByte 38 (b :: q')).1 = [] then
        parseQueryAux fuel (cutByte 38 (b :: q')).2
      else
        match parseSegPair (cutByte 38 (b :: q')).1 with
        | some kv => kv :: parseQueryAux fuel (cutByte 38 (b :: q')).2
        | none => parseQueryAux fuel (cutByte 38 (b :: q')).2

/-- Embeds `url.ParseQuery` as the ordered list of decoded key/value pairs
(one more than the query's byte length bounds the number of segments). -/
def parseQuery (q : GoBytes) : List (GoBytes × GoBytes) :=
  parseQueryAux (q.length + 1) q

/-- One encoded `key=value` pair as emitted by `url.Values.Encode`. -/
def encodePair (k v : GoBytes) : GoBytes :=
  queryEscape k ++ 61 :: queryEscape v

/-- The query string built by `Client.buildURL`: `url.Values.Encode` over
`cmnd` plus the optional `user`/`password` parameters (added only when the
credential is non-empty), with keys in `Encode`'s sorted order
`cmnd < password < user`. -/
def buildQuery (cmd user pass : GoBytes) : GoBytes :=
  encodePair (gostr "cmnd") cmd
    ++ (if pass ≠ [] then 38 :: encodePair (gostr "password") pass else [])
    ++ (if user ≠ [] then 38 :: encodePair (gostr "user") user else [])

/-- `url.Values.Get`: the first value recorded for a key. -/
def getFirst (key : GoBytes) : List (GoBytes × GoBytes) → Option GoBytes
  | [] => none
  | kv :: rest => if kv.1 = key then some kv.2 else getFirst key rest

end Tasmota

namespace Tasmota

theorem backlog_append_ne_empty (s : String) : "Backlog " ++ s ≠ "" := by
  intro h
  have hlen : ("Backlog " ++ s).length = ("" : String).length := by rw [h]
  rw [String.length_append] at hlen
  have h8 : ("Backlog " : String).length = 8 := rfl
  have h0 : ("" : String).length = 0 := rfl
  omega

/-- C5: executing the empty command fails with a Command-kind error before
any HTTP request, for every transport, JSON validator and client. -/
theorem executeCommand_empty_rejected (vj : String → Bool)
    (tr : String → TransportOutcome) (c : Client) :
    ExecuteCommand vj tr c "" =
      ([], .error (NewError .command "command cannot be empty")) := rfl

/-- C2: evaluating the status read at the failing categories: the code
renders category 10 as the single character after `'9'`, sending
`"Status :"` (and `"Status ;"` for category 11) instead of the decimal
`"Status 10"`/`"Status 11"` its own doc comment and `GetSensorData`/`GetState`
require; the typed-getter half of the claim does hold — a response missing
the expected sub-object yields a Parse-kind error. -/
theorem statusCommand_digit_overflow :
    statusCommand 10 = .ok "Status :" ∧
    statusCommand 11 = .ok "Status ;" ∧
    ("Status :" ≠ "Status 10") ∧
    getDeviceInfoPost { Status := none } =
      .error (NewError .parse "status response missing Status field") := by
  refine ⟨rfl, rfl, by decide, rfl⟩

/-- C6: the backlog batcher rejects an empty list, a list of more than 30
commands, and a list whose every element trims to empty, each time with a
Command-kind error and no HTTP request. -/
theorem executeBacklog_rejections (vj : String → Bool)
    (tr : String → TransportOutcome) (c : Client) (commands : List String) :
    (commands = [] →
      ExecuteBacklog vj tr c commands =
        ([], .error (NewError .command "no commands provided"))) ∧
    (commands.length > 30 →
      ExecuteBacklog vj tr c commands =
        ([], .error (NewError .command "backlog supports maximum 30 commands"))) ∧
    ((∀ cmd ∈ commands, trimSpace cmd = "") →
      (ExecuteBacklog vj tr c commands).1 = [] ∧
      ∃ m, (ExecuteBacklog vj tr c commands).2 = .error (NewError .command m)) := by
  refine ⟨?_, ?_, ?_⟩
  · intro h
    subst h
    rfl
  · intro h
    unfold ExecuteBacklog
    rw [if_neg (by omega), if_pos h]
  · intro h
    by_cases h0 : commands.length = 0
    · unfold ExecuteBacklog
      rw [if_pos h0]
      exact ⟨rfl, "no commands provided", rfl⟩
    · by_cases h30 : commands.length > 30
      · unfold ExecuteBacklog
        rw [if_neg h0, if_pos h30]
        exact ⟨rfl, "backlog supports maximum 30 commands", rfl⟩
      · have hfil : (commands.map trimSpace).filter (fun s => s != "") = [] := by
          rw [List.filter_eq_nil_iff]
          intro a ha
          obtain ⟨cmd, hc, rfl⟩ := List.mem_map.mp ha
          simp [h cmd hc]
        unfold ExecuteBacklog
        rw [if_neg h0, if_neg h30, hfil,
          if_pos (show (List.length ([] : List String)) = 0 from rfl)]
        exact ⟨rfl, "no valid commands provided", rfl⟩

theorem executeBacklog_rejections_witness :
    (ExecuteBacklog (fun _ => true) (fun _ => .response 200 "null") ⟨true, "", ""⟩ ["", "  "]).1 = [] ∧
    (∃ m, (ExecuteBacklog (fun _ => true) (fun _ => .response 200 "null") ⟨true, "", ""⟩ ["", "  "]).2 =
      .error (NewError .command m)) ∧
    ExecuteBacklog (fun _ => true) (fun _ => .response 200 "null") ⟨true, "", ""⟩ [] =
      ([], .error (NewError .command "no commands provided")) ∧
    ExecuteBacklog (fun _ => true) (fun _ => .response 200 "null") ⟨true, "", ""⟩
        (List.replicate 31 "Power") =
      ([], .error (NewError .command "backlog supports maximum 30 commands")) := by
  have h := executeBacklog_rejections (fun _ => true) (fun _ => .response 200 "null")
    ⟨true, "", ""⟩ ["", "  "]
  have hblank := h.2.2 (by decide)
  have hnil := (executeBacklog_rejections (fun _ => true) (fun _ => .response 200 "null")
    ⟨true, "", ""⟩ []).1 rfl
  have hbig := (executeBacklog_rejections (fun _ => true) (fun _ => .response 200 "null")
    ⟨true, "", ""⟩ (List.replicate 31 "Power")).2.1 (by simp)
  exact ⟨hblank.1, hblank.2, hnil, hbig⟩

/-- C1: for 1–30 commands that are all non-empty after trimming, the backlog
batcher issues exactly one HTTP request, and its `cmnd` value is `"Backlog "`
followed by the trimmed commands joined with `"; "` in the order given. -/
theorem executeBacklog_single_request (vj : String → Bool)
    (tr : String → TransportOutcome) (c : Client) (commands : List String)
    (hvalid : c.baseURLValid = true)
    (h1 : 1 ≤ commands.length) (h30 : commands.length ≤ 30)
    (hne : ∀ cmd ∈ commands, trimSpace cmd ≠ "") :
    (ExecuteBacklog vj tr c commands).1 =
      ["Backlog " ++ String.intercalate "; " (commands.map trimSpace)] := by
  have hfil : (commands.map trimSpace).filter (fun s => s != "") = commands.map trimSpace := by
    rw [List.filter_eq_self]
    intro a ha
    obtain ⟨cmd, hc, rfl⟩ := List.mem_map.mp ha
    simpa using hne cmd hc
  unfold ExecuteBacklog
  rw [if_neg (by omega), if_neg (by omega), hfil,
    if_neg (by rw [List.length_map]; omega)]
  unfold ExecuteCommand buildURLCmnd
  rw [if_neg (backlog_append_ne_empty _), if_neg (backlog_append_ne_empty _),
    if_neg (by simp [hvalid])]

theorem executeBacklog_single_request_witness :
    (ExecuteBacklog (fun _ => true) (fun _ => .response 200 "null") ⟨true, "", ""⟩
        ["Power1 ON", " Power2 OFF "]).1 =
      ["Backlog Power1 ON; Power2 OFF"] := by
  have h := executeBacklog_single_request (fun _ => true) (fun _ => .response 200 "null")
    ⟨true, "", ""⟩ ["Power1 ON", " Power2 OFF "] rfl (by decide) (by decide) (by decide)
  exact h.trans (by decide)

/-- C3 (amended): classification of one request's outcome — HTTP 401 yields
an Auth-kind error; any other non-200 status yields a Network-kind error; a
transport failure with the context's deadline exceeded yields a Timeout-kind
error, while a context cancelled for any other reason yields a Network-kind
error; and a 200 response whose body fails JSON validation yields a
Parse-kind error from the executor. -/
theorem transport_outcome_classification (vj : String → Bool)
    (tr : String → TransportOutcome) (c : Client)
    (command body : String) (status : Nat) :
    (doRequest (.response 401 body) = .error (NewError .auth "authentication failed")) ∧
    (status ≠ 200 → status ≠ 401 →
      doRequest (.response status body) =
        .error (NewError .network ("unexpected status code: " ++ toString status))) ∧
    (doRequest (.transportError .deadlineExceeded) =
      .error (NewError .timeout "request timeout")) ∧
    (doRequest (.transportError .canceled) = .error (NewError .network "request failed")) ∧
    (command ≠ "" → c.baseURLValid = true → tr command = .response 200 body →
      vj body = false →
      (ExecuteCommand vj tr c command).2 =
        .error (NewError .parse "invalid JSON response")) := by
  refine ⟨rfl, ?_, rfl, rfl, ?_⟩
  · intro h200 h401
    simp [doRequest, h200, h401]
  · intro hcmd hvalid htr hvj
    unfold ExecuteCommand buildURLCmnd
    rw [if_neg hcmd, if_neg hcmd, if_neg (by simp [hvalid])]
    simp [htr, doRequest, hvj]

theorem transport_outcome_classification_witness :
    doRequest (.response 500 "oops") =
      .error (NewError .network ("unexpected status code: " ++ toString 500)) ∧
    (ExecuteCommand (fun _ => false) (fun _ => .response 200 "not json")
        ⟨true, "", ""⟩ "Power").2 =
      .error (NewError .parse "invalid JSON response") := by
  have h := transport_outcome_classification (fun _ => false)
    (fun _ => .response 200 "not json") ⟨true, "", ""⟩ "Power" "not json" 500
  exact ⟨h.2.1 (by decide) (by decide), h.2.2.2.2 (by decide) rfl rfl rfl⟩

theorem transport_cancelled_not_timeout :
    doRequest (.transportError .canceled) = .error (NewError .network "request failed") ∧
    ErrorType.network ≠ ErrorType.timeout := ⟨rfl, by decide⟩

/-- C4 (amended): client construction fails with a Network-kind error —
not a configuration/validation kind — when the host string is empty or when
`normalizeHost` fails on it. -/
theorem newClient_invalid_host_network_kind (parseHost : String → Option String)
    (host : String) :
    (host = "" →
      NewClient parseHost host = .error (NewError .network "host cannot be empty")) ∧
    ((∃ e, normalizeHost parseHost host = .error e) → host ≠ "" →
      NewClient parseHost host = .error (NewError .network "invalid host")) := by
  constructor
  · intro h
    subst h
    rfl
  · intro ⟨e, he⟩ hne
    unfold NewClient
    rw [if_neg hne, he]

theorem newClient_invalid_host_network_kind_witness :
    NewClient urlHostModel "" = .error (NewError .network "host cannot be empty") ∧
    NewClient urlHostModel "///" = .error (NewError .network "invalid host") := by
  refine ⟨(newClient_invalid_host_network_kind urlHostModel "").1 rfl, ?_⟩
  exact (newClient_invalid_host_network_kind urlHostModel "///").2
    ⟨"invalid host: http://", rfl⟩ (by decide)

theorem newClient_empty_host_not_command_kind :
    NewClient urlHostModel "" = .error (NewError .network "host cannot be empty") ∧
    ErrorType.network ≠ ErrorType.command := ⟨rfl, by decide⟩

/-- C7 (amended): when the host string with trailing slashes removed lacks
an `http://`/`https://` prefix, the normalizer's output is `http://`
prepended to that stripped string; when the stripped string still carries
such a prefix, the output is the stripped string itself, scheme unchanged.
(The stripped form matters: `"https:///"` starts with `https://` but its
stripped form `"https:"` does not, and the code then prepends `http://`.) -/
theorem normalizeHost_scheme_handling (parseHost : String → Option String)
    (host out : String) (h : normalizeHost parseHost host = .ok out) :
    (hasScheme (dropTrailingSlashes host) = false →
      out = "http://" ++ dropTrailingSlashes host) ∧
    (hasScheme (dropTrailingSlashes host) = true →
      out = dropTrailingSlashes host) := by
  have hout : out = withScheme (dropTrailingSlashes host) := by
    unfold normalizeHost at h
    split at h
    · cases h
    · split at h
      · cases h
      · cases h; rfl
  constructor
  · intro hs
    rw [hout]
    unfold withScheme
    rw [hs]
    simp
  · intro hs
    rw [hout]
    unfold withScheme
    rw [hs]
    simp

theorem normalizeHost_scheme_handling_witness :
    normalizeHost urlHostModel "192.168.4.1/" = .ok "http://192.168.4.1" ∧
    hasScheme (dropTrailingSlashes "192.168.4.1/") = false ∧
    "http://192.168.4.1" = "http://" ++ dropTrailingSlashes "192.168.4.1/" := by
  refine ⟨rfl, by decide, ?_⟩
  exact (normalizeHost_scheme_handling urlHostModel "192.168.4.1/"
    "http://192.168.4.1" rfl).1 (by decide)

theorem normalizeHost_scheme_not_preserved :
    strHasPre "https://" "https:///" = true ∧
    normalizeHost urlHostModel "https:///" = .ok "http://https:" ∧
    strHasPre "https://" "http://https:" = false := by
  refine ⟨by decide, rfl, by decide⟩

/-- C9: applying the composite configuration with device name "TestDevice",
power-on state 3 and LED state 1 issues exactly one HTTP request; its `cmnd`
value begins with `"Backlog "` and contains `"DeviceName TestDevice"`,
`"PowerOnState 3"` and `"LedState 1"` as substrings in that relative order,
exhibited by the explicit decomposition on the right-hand side. -/
theorem applyConfig_composite_order :
    (ApplyConfig (fun _ => true) (fun _ => .response 200 "null") ⟨true, "", ""⟩
        (some ⟨[], "TestDevice", 3, 1, 0, 0, 0, 0, 0⟩)).1 =
      ["Backlog " ++ ("DeviceName TestDevice" ++ ("; " ++ ("PowerOnState 3" ++
        ("; " ++ ("LedState 1" ++
          "; Sleep 0; ButtonRetain 0; SwitchRetain 0; SensorRetain 0; PowerRetain 0"))))) ] := by
  decide

theorem friendlyNameCommands_eq_nil (names : List String) (i : Nat) :
    friendlyNameCommands names i = [] ↔ ∀ n ∈ names, n = "" := by
  induction names generalizing i with
  | nil => simp [friendlyNameCommands]
  | cons n rest ih =>
      by_cases h : n = ""
      · simp [friendlyNameCommands, h, ih]
      · simp [friendlyNameCommands, h]

theorem applyConfigCommands_eq_nil (cfg : DeviceConfig) :
    applyConfigCommands cfg = [] ↔
      (cfg.DeviceName = "" ∧ (∀ n ∈ cfg.FriendlyName, n = "") ∧
       ¬(0 ≤ cfg.PowerOnState ∧ cfg.PowerOnState ≤ 5) ∧
       ¬(0 ≤ cfg.LedState ∧ cfg.LedState ≤ 8) ∧
       ¬(0 ≤ cfg.Sleep ∧ cfg.Sleep ≤ 250) ∧
       ¬(0 ≤ cfg.ButtonRetain ∧ cfg.ButtonRetain ≤ 1) ∧
       ¬(0 ≤ cfg.SwitchRetain ∧ cfg.SwitchRetain ≤ 1) ∧
       ¬(0 ≤ cfg.SensorRetain ∧ cfg.SensorRetain ≤ 1) ∧
       ¬(0 ≤ cfg.PowerRetain ∧ cfg.PowerRetain ≤ 1)) := by
  have hite : ∀ (P : Prop) [Decidable P] (x : String),
      ((if P then [x] else []) = []) ↔ ¬P := by
    intro P dp x
    split <;> simp [*]
  unfold applyConfigCommands
  simp only [List.append_eq_nil, friendlyNameCommands_eq_nil, hite]
  tauto

theorem doRequest_error_not_command (o : TransportOutcome) (e : TError)
    (h : doRequest o = .error e) : e.etype ≠ ErrorType.command := by
  cases o with
  | transportError ctx =>
      by_cases hc : ctx = CtxStatus.deadlineExceeded
      · simp only [doRequest, hc, if_true, reduceIte, Except.error.injEq] at h
        rw [← h]
        decide
      · simp only [doRequest, if_neg hc, Except.error.injEq] at h
        rw [← h]
        decide
  | response status body =>
      by_cases h200 : status = 200
      · simp [doRequest, h200] at h
      · by_cases h401 : status = 401
        · subst h401
          simp [doRequest] at h
          rw [← h]
          simp [NewError]
        · simp [doRequest, h200, h401] at h
          rw [← h]
          simp [NewError]

theorem executeCommand_ne_noValidChanges (vj : String → Bool)
    (tr : String → TransportOutcome) (c : Client) (cmd : String) :
    (ExecuteCommand vj tr c cmd).2 ≠
      .error (NewError .command "no valid configuration changes to apply") := by
  intro h
  unfold ExecuteCommand buildURLCmnd at h
  by_cases h0 : cmd = ""
  · rw [if_pos h0] at h
    simp [NewError] at h
  · rw [if_neg h0, if_neg h0] at h
    by_cases hb : c.baseURLValid = false
    · rw [if_pos hb] at h
      simp [NewError] at h
    · rw [if_neg hb] at h
      simp only [] at h
      rcases hdr : doRequest (tr cmd) with e | body
      · rw [hdr] at h
        simp only [Except.error.injEq] at h
        have := doRequest_error_not_command _ _ hdr
        rw [h] at this
        exact this rfl
      · rw [hdr] at h
        by_cases hv : vj body = true <;> simp [hv, NewError] at h

theorem executeBacklog_ne_noValidChanges (vj : String → Bool)
    (tr : String → TransportOutcome) (c : Client) (cmds : List String) :
    (ExecuteBacklog vj tr c cmds).2 ≠
      .error (NewError .command "no valid configuration changes to apply") := by
  intro h
  unfold ExecuteBacklog at h
  by_cases h0 : cmds.length = 0
  · rw [if_pos h0] at h
    simp [NewError] at h
  · rw [if_neg h0] at h
    by_cases h30 : cmds.length > 30
    · rw [if_pos h30] at h
      simp [NewError] at h
    · rw [if_neg h30] at h
      by_cases hf : ((cmds.map trimSpace).filter (fun s => s != "")).length = 0
      · rw [if_pos hf] at h
        simp [NewError] at h
      · rw [if_neg hf] at h
        exact executeCommand_ne_noValidChanges vj tr c _ h

/-- C10: `ApplyConfig` treats the zero value of each integer field as
in-range and emits an explicit `<SettingName> 0` command for it; an all-zero
configuration is therefore not rejected but sends one Backlog request that
resets the seven integer settings to 0; and the
"no valid configuration changes to apply" Command-kind error occurs exactly
when the device name is empty, every supplied friendly-name entry is empty,
and every integer field is outside its documented range. -/
theorem applyConfig_zero_values (vj : String → Bool)
    (tr : String → TransportOutcome) (c : Client) (cfg : DeviceConfig) :
    (cfg.PowerOnState = 0 → "PowerOnState 0" ∈ applyConfigCommands cfg) ∧
    (cfg.LedState = 0 → "LedState 0" ∈ applyConfigCommands cfg) ∧
    (cfg.Sleep = 0 → "Sleep 0" ∈ applyConfigCommands cfg) ∧
    (cfg.ButtonRetain = 0 → "ButtonRetain 0" ∈ applyConfigCommands cfg) ∧
    (cfg.SwitchRetain = 0 → "SwitchRetain 0" ∈ applyConfigCommands cfg) ∧
    (cfg.SensorRetain = 0 → "SensorRetain 0" ∈ applyConfigCommands cfg) ∧
    (cfg.PowerRetain = 0 → "PowerRetain 0" ∈ applyConfigCommands cfg) ∧
    (c.baseURLValid = true → cfg = ⟨[], "", 0, 0, 0, 0, 0, 0, 0⟩ →
      (ApplyConfig vj tr c (some cfg)).1 =
        ["Backlog PowerOnState 0; LedState 0; Sleep 0; ButtonRetain 0; SwitchRetain 0; SensorRetain 0; PowerRetain 0"]) ∧
    ((ApplyConfig vj tr c (some cfg)).2 =
        .error (NewError .command "no valid configuration changes to apply") ↔
      (cfg.DeviceName = "" ∧ (∀ n ∈ cfg.FriendlyName, n = "") ∧
       ¬(0 ≤ cfg.PowerOnState ∧ cfg.PowerOnState ≤ 5) ∧
       ¬(0 ≤ cfg.LedState ∧ cfg.LedState ≤ 8) ∧
       ¬(0 ≤ cfg.Sleep ∧ cfg.Sleep ≤ 250) ∧
       ¬(0 ≤ cfg.ButtonRetain ∧ cfg.ButtonRetain ≤ 1) ∧
       ¬(0 ≤ cfg.SwitchRetain ∧ cfg.SwitchRetain ≤ 1) ∧
       ¬(0 ≤ cfg.SensorRetain ∧ cfg.SensorRetain ≤ 1) ∧
       ¬(0 ≤ cfg.PowerRetain ∧ cfg.PowerRetain ≤ 1))) := by
  refine ⟨?_, ?_, ?_, ?_, ?_, ?_, ?_, ?_, ?_⟩
  · intro h
    unfold applyConfigCommands
    simp only [List.mem_append]
    refine Or.inl (Or.inl (Or.inl (Or.inl (Or.inl (Or.inl (Or.inr ?_))))))
    rw [h]
    decide
  · intro h
    unfold applyConfigCommands
    simp only [List.mem_append]
    refine Or.inl (Or.inl (Or.inl (Or.inl (Or.inl (Or.inr ?_)))))
    rw [h]
    decide
  · intro h
    unfold applyConfigCommands
    simp only [List.mem_append]
    refine Or.inl (Or.inl (Or.inl (Or.inl (Or.inr ?_))))
    rw [h]
    decide
  · intro h
    unfold applyConfigCommands
    simp only [List.mem_append]
    refine Or.inl (Or.inl (Or.inl (Or.inr ?_)))
    rw [h]
    decide
  · intro h
    unfold applyConfigCommands
    simp only [List.mem_append]
    refine Or.inl (Or.inl (Or.inr ?_))
    rw [h]
    decide
  · intro h
    unfold applyConfigCommands
    simp only [List.mem_append]
    refine Or.inl (Or.inr ?_)
    rw [h]
    decide
  · intro h
    unfold applyConfigCommands
    simp only [List.mem_append]
    refine Or.inr ?_
    rw [h]
    decide
  · intro hvalid hcfg
    subst hcfg
    simp only [ApplyConfig]
    rw [if_neg (by decide)]
    have hcmds : applyConfigCommands ⟨[], "", 0, 0, 0, 0, 0, 0, 0⟩ =
        ["PowerOnState 0", "LedState 0", "Sleep 0", "ButtonRetain 0",
         "SwitchRetain 0", "SensorRetain 0", "PowerRetain 0"] := by decide
    rw [hcmds]
    unfold ExecuteBacklog
    rw [if_neg (by decide), if_neg (by decide), if_neg (by decide)]
    unfold ExecuteCommand buildURLCmnd
    rw [if_neg (by decide), if_neg (by decide), if_neg (by simp [hvalid])]
    rfl
  · constructor
    · intro h
      by_cases hnil : applyConfigCommands cfg = []
      · exact (applyConfigCommands_eq_nil cfg).mp hnil
      · exfalso
        simp only [ApplyConfig] at h
        rw [if_neg hnil] at h
        exact executeBacklog_ne_noValidChanges vj tr c _ h
    · intro hcond
      have hnil : applyConfigCommands cfg = [] := (applyConfigCommands_eq_nil cfg).mpr hcond
      simp only [ApplyConfig]
      rw [if_pos hnil]

theorem applyConfig_zero_values_witness :
    "PowerOnState 0" ∈ applyConfigCommands ⟨[], "", 0, 0, 0, 0, 0, 0, 0⟩ ∧
    "PowerRetain 0" ∈ applyConfigCommands ⟨[], "", 0, 0, 0, 0, 0, 0, 0⟩ ∧
    (ApplyConfig (fun _ => true) (fun _ => .response 200 "null") ⟨true, "", ""⟩
        (some ⟨[], "", 0, 0, 0, 0, 0, 0, 0⟩)).1 =
      ["Backlog PowerOnState 0; LedState 0; Sleep 0; ButtonRetain 0; SwitchRetain 0; SensorRetain 0; PowerRetain 0"] ∧
    ((ApplyConfig (fun _ => true) (fun _ => .response 200 "null") ⟨true, "", ""⟩
        (some ⟨[], "", -1, -1, -1, -1, -1, -1, -1⟩)).2 =
      .error (NewError .command "no valid configuration changes to apply")) := by
  have h := applyConfig_zero_values (fun _ => true) (fun _ => .response 200 "null")
    ⟨true, "", ""⟩ ⟨[], "", 0, 0, 0, 0, 0, 0, 0⟩
  have h2 := applyConfig_zero_values (fun _ => true) (fun _ => .response 200 "null")
    ⟨true, "", ""⟩ ⟨[], "", -1, -1, -1, -1, -1, -1, -1⟩
  refine ⟨h.1 rfl, h.2.2.2.2.2.2.1 rfl, h.2.2.2.2.2.2.2.1 rfl rfl, ?_⟩
  exact h2.2.2.2.2.2.2.2.2.mpr
    ⟨rfl, by simp, by decide, by decide, by decide, by decide, by decide, by decide, by decide⟩

theorem hexDigitUpper_range {n : Nat} (h : n < 16) :
    (48 ≤ hexDigitUpper n ∧ hexDigitUpper n ≤ 57) ∨
    (65 ≤ hexDigitUpper n ∧ hexDigitUpper n ≤ 70) := by
  unfold hexDigitUpper
  split <;> omega

theorem hexVal_hexDigitUpper {n : Nat} (h : n < 16) :
    hexVal (hexDigitUpper n) = some n := by
  unfold hexDigitUpper hexVal
  by_cases h10 : n < 10
  · rw [if_pos h10, if_pos (by omega)]
    simp only [Option.some.injEq]
    omega
  · rw [if_neg h10, if_neg (by omega), if_pos (by omega)]
    simp only [Option.some.injEq]
    omega

theorem escapeByte_bytes {b : Nat} (hb : b < 256) :
    ∀ x ∈ escapeByte b, x ≠ 38 ∧ x ≠ 59 ∧ x ≠ 61 := by
  intro x hx
  unfold escapeByte at hx
  by_cases h32 : b = 32
  · rw [if_pos h32] at hx
    simp at hx
    omega
  · rw [if_neg h32] at hx
    by_cases hu : isUnreservedByte b
    · rw [if_pos hu] at hx
      simp at hx
      subst hx
      unfold isUnreservedByte at hu
      omega
    · rw [if_neg hu] at hx
      simp at hx
      rcases hx with hx | hx | hx
      · omega
      · have := hexDigitUpper_range (n := b / 16) (by omega)
        omega
      · have := hexDigitUpper_range (n := b % 16) (by omega)
        omega

theorem queryEscape_bytes {s : GoBytes} (hs : ∀ b ∈ s, b < 256) :
    ∀ x ∈ queryEscape s, x ≠ 38 ∧ x ≠ 59 ∧ x ≠ 61 := by
  induction s with
  | nil => simp [queryEscape]
  | cons b rest ih =>
      intro x hx
      unfold queryEscape at hx
      rcases List.mem_append.mp hx with hx | hx
      · exact escapeByte_bytes (hs b (by simp)) x hx
      · exact ih (fun y hy => hs y (by simp [hy])) x hx

theorem queryUnescapeAux_escapeByte {b : Nat} (hb : b < 256) (t : GoBytes)
    (fuel : Nat) :
    queryUnescapeAux (fuel + 1) (escapeByte b ++ t) =
      (queryUnescapeAux fuel t).map (fun r => b :: r) := by
  unfold escapeByte
  by_cases h32 : b = 32
  · rw [if_pos h32]
    subst h32
    rfl
  · rw [if_neg h32]
    by_cases hu : isUnreservedByte b
    · rw [if_pos hu]
      have h37 : ¬b = 37 := by unfold isUnreservedByte at hu; omega
      have h43 : ¬b = 43 := by unfold isUnreservedByte at hu; omega
      have hstep : queryUnescapeAux (fuel + 1) (b :: t) =
          if b = 37 then
            (match t with
              | h :: l :: rest' =>
                  (match hexVal h, hexVal l, queryUnescapeAux fuel rest' with
                    | some hv, some lv, some r => some ((16 * hv + lv) :: r)
                    | _, _, _ => none)
              | _ => none)
          else if b = 43 then (queryUnescapeAux fuel t).map (fun r => 32 :: r)
          else (queryUnescapeAux fuel t).map (fun r => b :: r) := rfl
      show queryUnescapeAux (fuel + 1) (b :: t) = _
      rw [hstep, if_neg h37, if_neg h43]
    · rw [if_neg hu]
      show queryUnescapeAux (fuel + 1)
        (37 :: hexDigitUpper (b / 16) :: hexDigitUpper (b % 16) :: t) = _
      change (match hexVal (hexDigitUpper (b / 16)), hexVal (hexDigitUpper (b % 16)),
          queryUnescapeAux fuel t with
        | some hv, some lv, some r => some ((16 * hv + lv) :: r)
        | _, _, _ => none) = _
      rw [hexVal_hexDigitUpper (by omega), hexVal_hexDigitUpper (by omega)]
      cases hq : queryUnescapeAux fuel t with
      | none => rfl
      | some r =>
          show some ((16 * (b / 16) + b % 16) :: r) = some (b :: r)
          have hdm : 16 * (b / 16) + b % 16 = b := by omega
          rw [hdm]

theorem queryUnescapeAux_queryEscape {s : GoBytes} (hs : ∀ b ∈ s, b < 256) :
    ∀ fuel, s.length + 1 ≤ fuel → queryUnescapeAux fuel (queryEscape s) = some s := by
  induction s with
  | nil =>
      intro fuel hfuel
      obtain ⟨f, rfl⟩ : ∃ f, fuel = f + 1 := by
        cases fuel with
        | zero => omega
        | succ f => exact ⟨f, rfl⟩
      rfl
  | cons b rest ih =>
      intro fuel hfuel
      obtain ⟨f, rfl⟩ : ∃ f, fuel = f + 1 := by
        cases fuel with
        | zero => omega
        | succ f => exact ⟨f, rfl⟩
      show queryUnescapeAux (f + 1) (escapeByte b ++ queryEscape rest) = _
      rw [queryUnescapeAux_escapeByte (hs b (by simp)),
        ih (fun y hy => hs y (by simp [hy])) f (by simp at hfuel; omega)]
      rfl

theorem length_le_length_queryEscape (s : GoBytes) :
    s.length ≤ (queryEscape s).length := by
  induction s with
  | nil => simp [queryEscape]
  | cons b rest ih =>
      show (b :: rest).length ≤ (escapeByte b ++ queryEscape rest).length
      rw [List.length_append]
      have h1 : 1 ≤ (escapeByte b).length := by
        unfold escapeByte
        split
        · simp
        · split <;> simp
      simp only [List.length_cons]
      omega

theorem queryUnescape_queryEscape {s : GoBytes} (hs : ∀ b ∈ s, b < 256) :
    queryUnescape (queryEscape s) = some s := by
  have hlen := length_le_length_queryEscape s
  exact queryUnescapeAux_queryEscape hs _ (by omega)

theorem cutByte_append (sep : Nat) (seg rest : GoBytes)
    (h : ∀ x ∈ seg, x ≠ sep) :
    cutByte sep (seg ++ sep :: rest) = (seg, rest) := by
  induction seg with
  | nil => simp [cutByte]
  | cons b s' ih =>
      have hb : b ≠ sep := h b (by simp)
      show cutByte sep (b :: (s' ++ sep :: rest)) = (b :: s', rest)
      have hstep : cutByte sep (b :: (s' ++ sep :: rest)) =
          if b = sep then ([], s' ++ sep :: rest)
          else (b :: (cutByte sep (s' ++ sep :: rest)).1,
            (cutByte sep (s' ++ sep :: rest)).2) := rfl
      rw [hstep, if_neg hb, ih (fun x hx => h x (by simp [hx]))]

theorem cutByte_no_sep (sep : Nat) (seg : GoBytes) (h : ∀ x ∈ seg, x ≠ sep) :
    cutByte sep seg = (seg, []) := by
  induction seg with
  | nil => rfl
  | cons b s' ih =>
      have hb : b ≠ sep := h b (by simp)
      have hstep : cutByte sep (b :: s') =
          if b = sep then ([], s')
          else (b :: (cutByte sep s').1, (cutByte sep s').2) := rfl
      rw [hstep, if_neg hb, ih (fun x hx => h x (by simp [hx]))]

theorem parseQueryAux_nil (fuel : Nat) : parseQueryAux fuel [] = [] := by
  cases fuel <;> rfl

theorem parseQueryAux_good_seg (fuel : Nat) (seg rest : GoBytes) (hseg : seg ≠ [])
    (h38 : ∀ x ∈ seg, x ≠ 38) (h59 : (59 : Nat) ∉ seg) :
    parseQueryAux (fuel + 1) (seg ++ 38 :: rest) =
      (match parseSegPair seg with
        | some kv => kv :: parseQueryAux fuel rest
        | none => parseQueryAux fuel rest) ∧
    parseQueryAux (fuel + 1) seg =
      (match parseSegPair seg with
        | some kv => [kv]
        | none => []) := by
  obtain ⟨b, s', rfl⟩ := List.exists_cons_of_ne_nil hseg
  have hstep : ∀ t, parseQueryAux (fuel + 1) (b :: t) =
      if (59 : Nat) ∈ (cutByte 38 (b :: t)).1 then
        parseQueryAux fuel (cutByte 38 (b :: t)).2
      else if (cutByte 38 (b :: t)).1 = [] then
        parseQueryAux fuel (cutByte 38 (b :: t)).2
      else
        match parseSegPair (cutByte 38 (b :: t)).1 with
        | some kv => kv :: parseQueryAux fuel (cutByte 38 (b :: t)).2
        | none => parseQueryAux fuel (cutByte 38 (b :: t)).2 := fun _ => rfl
  have hcutA : cutByte 38 (b :: (s' ++ 38 :: rest)) = (b :: s', rest) :=
    cutByte_append 38 (b :: s') rest h38
  have hcutB : cutByte 38 (b :: s') = (b :: s', []) := cutByte_no_sep 38 (b :: s') h38
  constructor
  · show parseQueryAux (fuel + 1) (b :: (s' ++ 38 :: rest)) = _
    rw [hstep, hcutA, if_neg h59, if_neg (by simp)]
  · rw [hstep, hcutB, if_neg h59, if_neg (by simp)]
    cases hsp : parseSegPair (b :: s') with
    | some kv => rw [parseQueryAux_nil]
    | none => exact parseQueryAux_nil fuel

/-- C8: reparsing the query string that `Client.buildURL` produces for any
non-empty command (and any credentials) recovers a `cmnd` parameter whose
decoded value is exactly the original command bytes. -/
theorem buildQuery_cmnd_roundtrip (cmd user pass : GoBytes)
    (_hne : cmd ≠ []) (hcm : ∀ b ∈ cmd, b < 256)
    (_hus : ∀ b ∈ user, b < 256) (_hpa : ∀ b ∈ pass, b < 256) :
    getFirst (gostr "cmnd") (parseQuery (buildQuery cmd user pass)) = some cmd := by
  have hkw : ∀ b ∈ gostr "cmnd", b < 256 := by decide
  have hk61 : ∀ x ∈ queryEscape (gostr "cmnd"), x ≠ 61 :=
    fun x hx => ((queryEscape_bytes hkw) x hx).2.2
  have hE38 : ∀ x ∈ encodePair (gostr "cmnd") cmd, x ≠ 38 := by
    intro x hx
    unfold encodePair at hx
    rcases List.mem_append.mp hx with hx | hx
    · exact ((queryEscape_bytes hkw) x hx).1
    · rcases List.mem_cons.mp hx with rfl | hx
      · omega
      · exact ((queryEscape_bytes hcm) x hx).1
  have hE59 : (59 : Nat) ∉ encodePair (gostr "cmnd") cmd := by
    intro hmem
    have : ∀ x ∈ encodePair (gostr "cmnd") cmd, x ≠ 59 := by
      intro x hx
      unfold encodePair at hx
      rcases List.mem_append.mp hx with hx | hx
      · exact ((queryEscape_bytes hkw) x hx).2.1
      · rcases List.mem_cons.mp hx with rfl | hx
        · omega
        · exact ((queryEscape_bytes hcm) x hx).2.1
    exact this 59 hmem rfl
  have hEne : encodePair (gostr "cmnd") cmd ≠ [] := by
    unfold encodePair
    simp
  have hsp : parseSegPair (encodePair (gostr "cmnd") cmd) = some (gostr "cmnd", cmd) := by
    unfold parseSegPair encodePair
    rw [cutByte_append 61 _ _ hk61,
      queryUnescape_queryEscape hkw, queryUnescape_queryEscape hcm]
  unfold buildQuery
  by_cases hpa0 : pass = []
  · by_cases hus0 : user = []
    · rw [if_neg (by simp [hpa0]), if_neg (by simp [hus0]), List.append_nil,
        List.append_nil]
      unfold parseQuery
      rw [(parseQueryAux_good_seg _ _ [] hEne hE38 hE59).2, hsp]
      simp [getFirst]
    · rw [if_neg (by simp [hpa0]), if_pos hus0, List.append_nil]
      unfold parseQuery
      rw [(parseQueryAux_good_seg _ _ _ hEne hE38 hE59).1, hsp]
      simp [getFirst]
  · by_cases hus0 : user = []
    · rw [if_pos hpa0, if_neg (by simp [hus0]), List.append_nil]
      unfold parseQuery
      rw [(parseQueryAux_good_seg _ _ _ hEne hE38 hE59).1, hsp]
      simp [getFirst]
    · rw [if_pos hpa0, if_pos hus0, List.append_assoc, List.cons_append]
      unfold parseQuery
      rw [(parseQueryAux_good_seg _ _ _ hEne hE38 hE59).1, hsp]
      simp [getFirst]

theorem buildQuery_cmnd_roundtrip_witness :
    getFirst (gostr "cmnd")
        (parseQuery (buildQuery (gostr "Power1 ON") (gostr "admin") (gostr "p&ss"))) =
      some (gostr "Power1 ON") :=
  buildQuery_cmnd_roundtrip (gostr "Power1 ON") (gostr "admin") (gostr "p&ss")
    (by decide) (by decide) (by decide) (by decide)
